import Mathlib

/-!
# Verification of the typed array-view and construction subsystem

Shallow embedding of `src/array.rs` (the `PyArray` untyped safe interface for
NumPy ndarray) and proofs about its view accessors, rectangularity checks and
shape/stride handling.

Modelling conventions:
* Element values are carried as `Int` (the supported element kinds are numeric
  or boolean; only sizes and tags matter to the logic being verified).
* A foreign array object (`PyArrayObject` metadata plus its buffer) is a
  `PyArray` record: runtime type tag, shape, byte strides, and the buffer as a
  function from element offset (relative to the data pointer, in units of the
  element) to value.
* Machine integers: `usize`/`isize` are modelled as `Nat`/`Int`; the one cast
  whose wrapping matters (`x as usize` on an `isize` stride) is made explicit
  as arithmetic modulo `2 ^ 64`.
* Fallible operations return `Except ArrayCastError _`.
* Calls into the foreign runtime and entries into `unsafe` blocks are made
  observable as an explicit effect trace (`List ForeignEffect`) returned next
  to the result, so that "no unchecked access / no allocation happens on the
  error path" is a provable statement.
-/

namespace RustNumpy

/-- Modelled from the spec: the Element-Type Registry (the `TypeNum` trait,
whose implementation is not part of the embedded source file). A static
element type is characterised by its runtime type tag `T::typenum()` and its
byte size `size_of::<T>()`; the mapping static type to tag is a bijection. -/
structure DType where
  typenum : Int
  size : Nat
  deriving DecidableEq

/-- Modelled from the spec: `ArrayCastError` (defined in the crate's error
module, not part of the embedded source file). `toRust expected found` is the
type-mismatch error produced by `ArrayCastError::to_rust(test, truth)`,
carrying the expected (requested static type's) tag and the found (foreign
buffer's) tag; `fromVec` is the rectangularity construction error. -/
inductive ArrayCastError where
  | toRust (expected found : Int)
  | fromVec
  deriving DecidableEq

/-- The foreign buffer handle: metadata and buffer of one `PyArrayObject`.
`mem k` is the element stored `k` element-widths past the data pointer. -/
structure PyArray where
  typenum : Int
  shape : List Nat
  strides : List Int
  mem : Nat → Int

/-- `PyArray::len`: `self.shape().iter().fold(1, |a, b| a * b)`. -/
def PyArray.len (h : PyArray) : Nat :=
  h.shape.foldl (fun a b => a * b) 1

/-- Observable interactions with foreign memory / the foreign runtime.
`reinterpret` marks entry into an `unsafe` block that reinterprets the data
pointer at the requested element type (the unchecked read/write path);
`alloc t dims` marks a `PyArray_New` foreign allocation call. -/
inductive ForeignEffect where
  | reinterpret
  | alloc (typenum : Int) (dims : List Nat)
  deriving DecidableEq

/-- Receiver borrow mode of a Rust method (`&self` vs `&mut self`). -/
inductive Borrow where
  | shared
  | exclusive
  deriving DecidableEq

/-- The `x as usize` cast applied to an `isize` byte stride (64-bit target):
wraps modulo `2 ^ 64`. -/
def usizeOfIsize (x : Int) : Nat :=
  (x % (2 : Int) ^ 64).toNat

/-- `PyArray::ndarray_shape::<A>`: the shape is passed through unchanged and
each byte stride is converted by `|&x| x as usize / size_of::<A>()` —
truncating unsigned division by the element size. Returns the pair
(shape, logical element strides) handed to `from_shape_ptr`. -/
def ndarray_shape (Asize : Nat) (h : PyArray) : List Nat × List Nat :=
  (h.shape, h.strides.map (fun x => usizeOfIsize x / Asize))

/-- An `ndarray::ArrayViewD` produced by `ArrayView::from_shape_ptr`: shape,
logical element strides, and the underlying buffer (no copy). -/
structure ArrayViewD where
  shape : List Nat
  strides : List Nat
  data : Nat → Int

/-- A mutable view `ndarray::ArrayViewMutD`; same geometry as `ArrayViewD`. -/
structure ArrayViewMutD where
  shape : List Nat
  strides : List Nat
  data : Nat → Int

/-- Dot product of a multi-index with a stride vector. -/
def dotNat : List Nat → List Nat → Nat
  | i :: is, s :: ss => i * s + dotNat is ss
  | _, _ => 0

/-- Element access of a view at a multi-index: read the buffer at the offset
encoded by the view's strides. -/
def ArrayViewD.get (v : ArrayViewD) (idx : List Nat) : Int :=
  v.data (dotNat idx v.strides)

/-- `PyArray::type_check::<A>`: compare `A::typenum()` with the foreign
buffer's `self.typenum()`; on mismatch fail with
`ArrayCastError::to_rust(test, truth)`. -/
def type_check (A : DType) (h : PyArray) : Except ArrayCastError Unit :=
  let test := A.typenum
  let truth := h.typenum
  if A.typenum = h.typenum then Except.ok () else Except.error (.toRust test truth)

/-- `PyArray::as_array::<A>`: run `type_check` (early return on error), then in
an `unsafe` block build `ArrayView::from_shape_ptr(self.ndarray_shape::<A>(),
self.data())`. The effect trace records the unsafe reinterpretation. -/
def as_array (A : DType) (h : PyArray) :
    Except ArrayCastError ArrayViewD × List ForeignEffect :=
  match type_check A h with
  | .error e => (.error e, [])
  | .ok () =>
    let sh := ndarray_shape A.size h
    (.ok { shape := sh.1, strides := sh.2, data := h.mem }, [.reinterpret])

/-- `PyArray::as_array_mut::<A>`: same as `as_array` but builds an
`ArrayViewMut`. Note the source declares it with a shared receiver `&self`. -/
def as_array_mut (A : DType) (h : PyArray) :
    Except ArrayCastError ArrayViewMutD × List ForeignEffect :=
  match type_check A h with
  | .error e => (.error e, [])
  | .ok () =>
    let sh := ndarray_shape A.size h
    (.ok { shape := sh.1, strides := sh.2, data := h.mem }, [.reinterpret])

/-- `PyArray::as_slice::<A>`: run `type_check`, then in an `unsafe` block
`slice::from_raw_parts(self.data(), self.len())` — the `len()` elements
starting at the data pointer, read contiguously. -/
def as_slice (A : DType) (h : PyArray) :
    Except ArrayCastError (List Int) × List ForeignEffect :=
  match type_check A h with
  | .error e => (.error e, [])
  | .ok () => (.ok ((List.range h.len).map h.mem), [.reinterpret])

/-- `PyArray::as_slice_mut::<A>`: `slice::from_raw_parts_mut(self.data(),
self.len())` after the type check. The source declares it with receiver
`&self`. -/
def as_slice_mut (A : DType) (h : PyArray) :
    Except ArrayCastError (List Int) × List ForeignEffect :=
  match type_check A h with
  | .error e => (.error e, [])
  | .ok () => (.ok ((List.range h.len).map h.mem), [.reinterpret])

/-- Receiver mode of `fn as_array<A>(&self)` in the source. -/
def as_array_receiver : Borrow := Borrow.shared

/-- Receiver mode of `fn as_array_mut<A>(&self)` in the source: the mutable
view constructor is declared with a shared borrow of the handle. -/
def as_array_mut_receiver : Borrow := Borrow.shared

/-- Receiver mode of `fn as_slice<A>(&self)` in the source. -/
def as_slice_receiver : Borrow := Borrow.shared

/-- Receiver mode of `fn as_slice_mut<A>(&self)` in the source: shared. -/
def as_slice_mut_receiver : Borrow := Borrow.shared

/-- Row-major element strides for a shape: `stride[i] = prod(shape[i+1..])`
(in elements; multiply by the element size for byte strides). -/
def rowMajorStrides : List Nat → List Nat
  | [] => []
  | _ :: ds => ds.prod :: rowMajorStrides ds

/-- Modelled from the spec: `PyArray::new_` wraps the foreign-runtime call
`PyArray_New` (an external collaborator not part of the embedded source): with
null strides and flag 0 it realizes a C-order (row-major contiguous) array of
the given dims and element tag, whose buffer is the caller-transferred `data`
vector. Out-of-range offsets read as 0 (the model's arbitrary default). -/
def new_ (A : DType) (dims : List Nat) (data : List Int) : PyArray :=
  { typenum := A.typenum
    shape := dims
    strides := (rowMajorStrides dims).map (fun s => (s * A.size : Int))
    mem := fun k => data.getD k 0 }

/-- The local `last_len` of `PyArray::from_vec2`:
`v.last().map_or(0, |v| v.len())`. -/
def vec2_last_len (v : List (List Int)) : Nat :=
  match v.getLast? with
  | none => 0
  | some r => r.length

/-- `PyArray::from_vec2::<T>`: take the last inner vector's length as the
expected length; if any inner vector's length differs, fail with
`ArrayCastError::FromVec` (before flattening or allocating); otherwise flatten
row-major and allocate via `new_` with dims `[v.len(), last_len]`. -/
def from_vec2 (A : DType) (v : List (List Int)) :
    Except ArrayCastError PyArray × List ForeignEffect :=
  let last_len := vec2_last_len v
  if v.any (fun r => r.length != last_len) then (.error .fromVec, [])
  else
    let dims := [v.length, last_len]
    let flattend := v.flatten
    (.ok (new_ A dims flattend), [.alloc A.typenum dims])

/-- The local `dim2` of `PyArray::from_vec3`:
`v.last().map_or(0, |v| v.len())`. -/
def vec3_dim2 (v : List (List (List Int))) : Nat :=
  match v.getLast? with
  | none => 0
  | some r => r.length

/-- The local `dim3` of `PyArray::from_vec3`:
`v.last().map_or(0, |v| v.last().map_or(0, |v| v.len()))`. -/
def vec3_dim3 (v : List (List (List Int))) : Nat :=
  match v.getLast? with
  | none => 0
  | some r =>
    match r.getLast? with
    | none => 0
    | some s => s.length

/-- `PyArray::from_vec3::<T>`: check every depth-2 length against the last
depth-2 vector's length, then every depth-3 length against the last-of-last's
length; any mismatch fails with `ArrayCastError::FromVec` before flattening or
allocating; otherwise flatten row-major and allocate with dims
`[v.len(), dim2, dim3]`. -/
def from_vec3 (A : DType) (v : List (List (List Int))) :
    Except ArrayCastError PyArray × List ForeignEffect :=
  let dim2 := vec3_dim2 v
  if v.any (fun r => r.length != dim2) then (.error .fromVec, [])
  else
    let dim3 := vec3_dim3 v
    if v.any (fun r => r.any (fun s => s.length != dim3)) then (.error .fromVec, [])
    else
      let dims := [v.length, dim2, dim3]
      let flattend := (v.map List.flatten).flatten
      (.ok (new_ A dims flattend), [.alloc A.typenum dims])

/-- Example registry entry: 32-bit signed integer (NumPy tag `NPY_INT`). -/
def npyInt32 : DType := { typenum := 5, size := 4 }

/-- Example registry entry: 64-bit float (NumPy tag `NPY_DOUBLE`). -/
def npyFloat64 : DType := { typenum := 12, size := 8 }

/-- Row-major flat position of a multi-index in a shape:
`flatIndex [i, j, ...] [d0, d1, ...] = i * prod [d1, ...] + ...`. -/
def flatIndex : List Nat → List Nat → Nat
  | i :: is, _ :: ds => i * ds.prod + flatIndex is ds
  | _, _ => 0

/-- A multi-index is in bounds for a shape: same rank, each coordinate below
the corresponding extent. -/
def validIndex : List Nat → List Nat → Bool
  | [], [] => true
  | i :: is, d :: ds => decide (i < d) && validIndex is ds
  | _, _ => false

/-! ## Helper lemmas -/

theorem PyArray.len_eq_prod (h : PyArray) : h.len = h.shape.prod :=
  List.prod_eq_foldl.symm

theorem dotNat_rowMajorStrides :
    ∀ (idx shape : List Nat), dotNat idx (rowMajorStrides shape) = flatIndex idx shape
  | [], [] => rfl
  | [], _ :: _ => rfl
  | _ :: _, [] => rfl
  | i :: is, d :: ds => by
    simp only [rowMajorStrides, dotNat, flatIndex, dotNat_rowMajorStrides is ds]

theorem flatIndex_lt_prod :
    ∀ (idx shape : List Nat), validIndex idx shape = true →
      flatIndex idx shape < shape.prod := by
  intro idx shape
  induction shape generalizing idx with
  | nil =>
    cases idx with
    | nil => intro _; simp [flatIndex]
    | cons i is => intro hv; simp [validIndex] at hv
  | cons d ds ih =>
    cases idx with
    | nil => intro hv; simp [validIndex] at hv
    | cons i is =>
      intro hv
      simp only [validIndex, Bool.and_eq_true, decide_eq_true_eq] at hv
      obtain ⟨hi, hrest⟩ := hv
      have hlt := ih is hrest
      calc flatIndex (i :: is) (d :: ds) = i * ds.prod + flatIndex is ds := rfl
        _ < i * ds.prod + ds.prod := Nat.add_lt_add_left hlt _
        _ = (i + 1) * ds.prod := (Nat.succ_mul i ds.prod).symm
        _ ≤ d * ds.prod := Nat.mul_le_mul_right _ (Nat.succ_le_of_lt hi)
        _ ≤ (d :: ds).prod := le_of_eq (List.prod_cons).symm

theorem flatten_getD_rect (n : Nat) :
    ∀ (v : List (List Int)), (∀ r ∈ v, r.length = n) →
      ∀ i j, i < v.length → j < n →
        v.flatten.getD (i * n + j) 0 = (v.getD i []).getD j 0 := by
  intro v
  induction v with
  | nil => intro _ i j hi _; exact absurd hi (Nat.not_lt_zero i)
  | cons r rest ih =>
    intro hrect i j hi hj
    have hr : r.length = n := hrect r (List.mem_cons_self r rest)
    cases i with
    | zero =>
      rw [List.flatten_cons, Nat.zero_mul, Nat.zero_add,
        List.getD_append r rest.flatten 0 j (hr ▸ hj), List.getD_cons_zero]
    | succ i =>
      have hidx : (i + 1) * n + j = r.length + (i * n + j) := by
        rw [hr]; ring
      rw [List.flatten_cons, hidx,
        List.getD_append_right r rest.flatten 0 _ (Nat.le_add_right _ _),
        Nat.add_sub_cancel_left, List.getD_cons_succ]
      exact ih (fun s hs => hrect s (List.mem_cons_of_mem r hs)) i j
        (Nat.lt_of_succ_lt_succ hi) hj

theorem range_map_getD (f : Nat → Int) (m k : Nat) (hk : k < m) :
    ((List.range m).map f).getD k 0 = f k := by
  have hlen : k < ((List.range m).map f).length := by
    simpa using hk
  rw [List.getD_eq_getElem _ _ hlen, List.getElem_map]
  congr 1
  exact List.getElem_range k _

/-- A foreign f64 array probed with the wrong static type in witnesses. -/
def f64Zeros3 : PyArray := new_ npyFloat64 [3] [0, 0, 0]

/-- A foreign i32 array whose reported byte stride (7) is not a multiple of
the element size (4). -/
def strideProbe : PyArray := { typenum := 5, shape := [3], strides := [7], mem := fun _ => 0 }

/-- A C-contiguous 2-by-3 f64 array: byte strides `[24, 8]`, buffer holding
the element's flat offset as its value. -/
def f64Mat23 : PyArray :=
  { typenum := 12, shape := [2, 3], strides := [24, 8], mem := fun k => (k : Int) }

/-! ## Claim theorems -/

/-- C1: for every static element type and every array whose runtime tag
differs from the requested type's tag, `as_array`, `as_array_mut`, `as_slice`
and `as_slice_mut` fail with the type-mismatch error carrying the expected tag
(the static type's) and the found tag (the array's); the type check succeeds
exactly when the two tags are equal. -/
theorem accessors_fail_with_both_tags (A : DType) (h : PyArray) :
    (type_check A h = .ok () ↔ A.typenum = h.typenum) ∧
    (A.typenum ≠ h.typenum →
      (as_array A h).1 = .error (.toRust A.typenum h.typenum) ∧
      (as_array_mut A h).1 = .error (.toRust A.typenum h.typenum) ∧
      (as_slice A h).1 = .error (.toRust A.typenum h.typenum) ∧
      (as_slice_mut A h).1 = .error (.toRust A.typenum h.typenum)) := by
  by_cases hc : A.typenum = h.typenum
  · exact ⟨by simp [type_check, hc], fun hne => absurd hc hne⟩
  · refine ⟨by simp [type_check, hc], fun _ => ⟨?_, ?_, ?_, ?_⟩⟩ <;>
      simp [as_array, as_array_mut, as_slice, as_slice_mut, type_check, hc]

/-- Witness for C1: requesting i32 (tag 5) on an f64 array (tag 12) fails with
`toRust 5 12` in all four accessors. -/
theorem accessors_fail_with_both_tags_witness :
    (as_array npyInt32 f64Zeros3).1 = .error (.toRust 5 12) ∧
    (as_array_mut npyInt32 f64Zeros3).1 = .error (.toRust 5 12) ∧
    (as_slice npyInt32 f64Zeros3).1 = .error (.toRust 5 12) ∧
    (as_slice_mut npyInt32 f64Zeros3).1 = .error (.toRust 5 12) :=
  (accessors_fail_with_both_tags npyInt32 f64Zeros3).2 (by decide)

/-- C2: each typed accessor performs the tag comparison first and returns
early on mismatch; on the failure path the effect trace is empty — no
unchecked reinterpretation (read or write) of the foreign buffer occurs. -/
theorem no_reinterpret_on_mismatch (A : DType) (h : PyArray)
    (hne : A.typenum ≠ h.typenum) :
    as_array A h = (.error (.toRust A.typenum h.typenum), []) ∧
    as_array_mut A h = (.error (.toRust A.typenum h.typenum), []) ∧
    as_slice A h = (.error (.toRust A.typenum h.typenum), []) ∧
    as_slice_mut A h = (.error (.toRust A.typenum h.typenum), []) := by
  refine ⟨?_, ?_, ?_, ?_⟩ <;>
    simp [as_array, as_array_mut, as_slice, as_slice_mut, type_check, hne]

/-- Witness for C2 at the concrete mismatched pair (i32 requested, f64 array):
all four accessors error out with an empty effect trace. -/
theorem no_reinterpret_on_mismatch_witness :
    as_array npyInt32 f64Zeros3 = (.error (.toRust 5 12), []) ∧
    as_array_mut npyInt32 f64Zeros3 = (.error (.toRust 5 12), []) ∧
    as_slice npyInt32 f64Zeros3 = (.error (.toRust 5 12), []) ∧
    as_slice_mut npyInt32 f64Zeros3 = (.error (.toRust 5 12), []) :=
  no_reinterpret_on_mismatch npyInt32 f64Zeros3 (by decide)

/-- C6 counterexample: with matching tags but a byte stride (7) that is not a
multiple of the element size (4), `as_array` does not fail — it succeeds with
the truncated logical stride `7 / 4 = 1`. The claimed `StrideAlignmentError`
does not exist in the code. -/
theorem stride_misalignment_not_rejected :
    (as_array npyInt32 strideProbe).1 =
      .ok { shape := [3], strides := [1], data := strideProbe.mem } ∧
    usizeOfIsize 7 % npyInt32.size ≠ 0 := by
  exact ⟨rfl, by decide⟩

/-- C6 amended: translating foreign byte strides never fails — whenever the
tag check passes, `as_array` succeeds and each logical stride is obtained from
the byte stride by the `usize` cast followed by truncating division by the
element size (misaligned strides are silently rounded down). -/
theorem stride_division_truncates (A : DType) (h : PyArray)
    (hty : A.typenum = h.typenum) :
    (as_array A h).1 =
      .ok { shape := h.shape,
            strides := h.strides.map (fun x => usizeOfIsize x / A.size),
            data := h.mem } := by
  simp [as_array, type_check, hty, ndarray_shape]

/-- Witness for the amended C6: the misaligned-stride array is accepted. -/
theorem stride_division_truncates_witness :
    (as_array npyInt32 strideProbe).1 =
      .ok { shape := strideProbe.shape,
            strides := strideProbe.strides.map (fun x => usizeOfIsize x / npyInt32.size),
            data := strideProbe.mem } :=
  stride_division_truncates npyInt32 strideProbe (by decide)

/-- C7 counterexample: for a 0-dimensional array (empty shape), `len()` is the
empty product `1`, not `0` as claimed. -/
theorem len_zero_dim_is_one :
    PyArray.len { typenum := 12, shape := [], strides := [], mem := fun _ => 0 } = 1 ∧
    (1 : Nat) ≠ 0 :=
  ⟨rfl, by decide⟩

/-- C7 amended: `len()` equals the product of the shape's extents for every
array (so shape `[4,5,6]` gives `120`), and for a 0-dimensional array (empty
shape) it is `1`, the empty product. -/
theorem len_eq_shape_prod :
    (∀ h : PyArray, h.len = h.shape.prod) ∧
    PyArray.len { typenum := 12, shape := [4, 5, 6], strides := [], mem := fun _ => 0 } = 120 ∧
    PyArray.len { typenum := 12, shape := [], strides := [], mem := fun _ => 0 } = 1 :=
  ⟨fun h => h.len_eq_prod, rfl, rfl⟩

/-- C9 (code bug): all four accessors — including the mutable ones — are
declared with a shared receiver `&self` in the source, so the mutable-view
constructor does not borrow the handle exclusively and the borrow checker does
not prevent a mutable view from coexisting with other views of the handle. -/
theorem mutable_accessors_take_shared_receiver :
    as_array_mut_receiver = Borrow.shared ∧
    as_slice_mut_receiver = Borrow.shared ∧
    as_array_receiver = Borrow.shared ∧
    as_slice_receiver = Borrow.shared ∧
    Borrow.shared ≠ Borrow.exclusive :=
  ⟨rfl, rfl, rfl, rfl, by decide⟩

/-- C3: the rectangularity check of `from_vec2` and `from_vec3` takes the
length of the last sub-sequence at each depth as the expected length, and the
construction error is returned exactly when some sub-sequence at that depth
has a different length. -/
theorem rectangularity_uses_last_length (A : DType) (v2 : List (List Int))
    (v3 : List (List (List Int))) :
    ((from_vec2 A v2).1 = .error .fromVec ↔ ∃ r ∈ v2, r.length ≠ vec2_last_len v2) ∧
    ((from_vec3 A v3).1 = .error .fromVec ↔
      (∃ r ∈ v3, r.length ≠ vec3_dim2 v3) ∨
      (∃ r ∈ v3, ∃ s ∈ r, s.length ≠ vec3_dim3 v3)) := by
  constructor
  · by_cases hc : v2.any (fun r => r.length != vec2_last_len v2) = true
    · have hex : ∃ r ∈ v2, r.length ≠ vec2_last_len v2 := by
        simpa [List.any_eq_true, bne_iff_ne] using hc
      exact ⟨fun _ => hex, fun _ => by simp [from_vec2, hc]⟩
    · have hall : ∀ r ∈ v2, r.length = vec2_last_len v2 := by
        simpa [List.any_eq_false, bne_iff_ne, Bool.not_eq_true] using hc
      constructor
      · intro habs
        rw [from_vec2] at habs
        simp [hc] at habs
      · rintro ⟨r, hr, hne⟩
        exact absurd (hall r hr) hne
  · by_cases hc1 : v3.any (fun r => r.length != vec3_dim2 v3) = true
    · have hex : ∃ r ∈ v3, r.length ≠ vec3_dim2 v3 := by
        simpa [List.any_eq_true, bne_iff_ne] using hc1
      exact ⟨fun _ => Or.inl hex, fun _ => by simp [from_vec3, hc1]⟩
    · have hall1 : ∀ r ∈ v3, r.length = vec3_dim2 v3 := by
        simpa [List.any_eq_false, bne_iff_ne, Bool.not_eq_true] using hc1
      by_cases hc2 : v3.any (fun r => r.any (fun s => s.length != vec3_dim3 v3)) = true
      · have hex : ∃ r ∈ v3, ∃ s ∈ r, s.length ≠ vec3_dim3 v3 := by
          simpa [List.any_eq_true, bne_iff_ne] using hc2
        exact ⟨fun _ => Or.inr hex, fun _ => by simp [from_vec3, hc1, hc2]⟩
      · have hall2 : ∀ r ∈ v3, ∀ s ∈ r, s.length = vec3_dim3 v3 := by
          simpa [List.any_eq_false, bne_iff_ne, Bool.not_eq_true] using hc2
        constructor
        · intro habs
          rw [from_vec3] at habs
          simp [hc1, hc2] at habs
        · rintro (⟨r, hr, hne⟩ | ⟨r, hr, s, hs, hne⟩)
          · exact absurd (hall1 r hr) hne
          · exact absurd (hall2 r hr s hs) hne

/-- C4: on rectangular 2-D input, `from_vec2` succeeds with dims
`[outer length, inner length]` and a backing buffer that is the row-major
flattening of the input; element `(i, j)` of the buffer sits at flat offset
`i * inner + j`. -/
theorem from_vec2_rectangular (A : DType) (v : List (List Int))
    (hrect : ∀ r ∈ v, r.length = vec2_last_len v) :
    from_vec2 A v =
      (.ok (new_ A [v.length, vec2_last_len v] v.flatten),
       [.alloc A.typenum [v.length, vec2_last_len v]]) ∧
    (new_ A [v.length, vec2_last_len v] v.flatten).shape = [v.length, vec2_last_len v] ∧
    ∀ i j, i < v.length → j < vec2_last_len v →
      (new_ A [v.length, vec2_last_len v] v.flatten).mem (i * vec2_last_len v + j) =
        (v.getD i []).getD j 0 := by
  have hc : v.any (fun r => r.length != vec2_last_len v) = false := by
    simpa [List.any_eq_false, bne_iff_ne] using hrect
  refine ⟨by simp [from_vec2, hc], rfl, ?_⟩
  intro i j hi hj
  show v.flatten.getD (i * vec2_last_len v + j) 0 = (v.getD i []).getD j 0
  exact flatten_getD_rect (vec2_last_len v) v hrect i j hi hj

/-- Witness for C4: `[[1,2,3],[1,2,3]]` gives dims `[2,3]` with buffer
`[1,2,3,1,2,3]`, and in the array built from `[[1,2],[3,4]]` the element at
row 1, column 0 of the row-major buffer is 3. -/
theorem from_vec2_rectangular_witness :
    from_vec2 npyInt32 [[1, 2, 3], [1, 2, 3]] =
      (.ok (new_ npyInt32 [2, 3] [1, 2, 3, 1, 2, 3]), [.alloc 5 [2, 3]]) ∧
    (new_ npyInt32 [2, 3] [1, 2, 3, 1, 2, 3]).shape = [2, 3] ∧
    (new_ npyInt32 [2, 2] ([[1, 2], [3, 4]] : List (List Int)).flatten).mem (1 * 2 + 0) = 3 :=
  ⟨(from_vec2_rectangular npyInt32 [[1, 2, 3], [1, 2, 3]] (by decide)).1,
   (from_vec2_rectangular npyInt32 [[1, 2, 3], [1, 2, 3]] (by decide)).2.1,
   (from_vec2_rectangular npyInt32 [[1, 2], [3, 4]] (by decide)).2.2 1 0
     (by decide) (by decide)⟩

/-- C5: on non-rectangular input, `from_vec2` and `from_vec3` return the
construction error with an empty effect trace — no foreign allocation call and
no flattening result is produced on the error path. -/
theorem error_before_allocation (A : DType) (v2 : List (List Int))
    (v3 : List (List (List Int)))
    (h2 : ∃ r ∈ v2, r.length ≠ vec2_last_len v2)
    (h3 : (∃ r ∈ v3, r.length ≠ vec3_dim2 v3) ∨
          (∃ r ∈ v3, ∃ s ∈ r, s.length ≠ vec3_dim3 v3)) :
    from_vec2 A v2 = (.error .fromVec, []) ∧
    from_vec3 A v3 = (.error .fromVec, []) := by
  constructor
  · have hc : v2.any (fun r => r.length != vec2_last_len v2) = true := by
      simpa [List.any_eq_true, bne_iff_ne] using h2
    simp [from_vec2, hc]
  · rcases h3 with h3 | h3
    · have hc : v3.any (fun r => r.length != vec3_dim2 v3) = true := by
        simpa [List.any_eq_true, bne_iff_ne] using h3
      simp [from_vec3, hc]
    · by_cases hc1 : v3.any (fun r => r.length != vec3_dim2 v3) = true
      · simp [from_vec3, hc1]
      · have hc2 : v3.any (fun r => r.any (fun s => s.length != vec3_dim3 v3)) = true := by
          simpa [List.any_eq_true, bne_iff_ne] using h3
        simp [from_vec3, hc1, hc2]

/-- Witness for C5: the ragged inputs `[[1],[2,3]]` (2-D) and `[[[1],[]]]`
(3-D, inconsistent third-level lengths) both fail with `FromVec` and an empty
effect trace. -/
theorem error_before_allocation_witness :
    from_vec2 npyInt32 [[1], [2, 3]] = (.error .fromVec, []) ∧
    from_vec3 npyInt32 [[[1], []]] = (.error .fromVec, []) :=
  error_before_allocation npyInt32 [[1], [2, 3]] [[[1], []]]
    (by decide) (Or.inr (by decide))

/-- C8: when the tag matches and the translated strides are exactly the
row-major contiguous strides of the shape, `as_slice` and `as_slice_mut`
return exactly `len()` elements starting at the data pointer, and that flat
slice agrees with the strided view element-for-element at every in-bounds
multi-index (the flat offset being the row-major flat index). -/
theorem as_slice_contiguous_row_major (A : DType) (h : PyArray)
    (hty : A.typenum = h.typenum)
    (hcontig : (ndarray_shape A.size h).2 = rowMajorStrides h.shape) :
    ∃ s vw,
      (as_slice A h).1 = .ok s ∧
      (as_slice_mut A h).1 = .ok s ∧
      (as_array A h).1 = .ok vw ∧
      s.length = h.len ∧
      (∀ k, k < h.len → s.getD k 0 = h.mem k) ∧
      (∀ idx, validIndex idx h.shape = true →
        s.getD (flatIndex idx h.shape) 0 = vw.get idx) := by
  refine ⟨(List.range h.len).map h.mem,
    { shape := h.shape, strides := (ndarray_shape A.size h).2, data := h.mem },
    ?_, ?_, ?_, ?_, ?_, ?_⟩
  · simp [as_slice, type_check, hty]
  · simp [as_slice_mut, type_check, hty]
  · simp [as_array, type_check, hty, ndarray_shape]
  · simp
  · intro k hk
    exact range_map_getD h.mem h.len k hk
  · intro idx hidx
    have hlt : flatIndex idx h.shape < h.len := by
      rw [h.len_eq_prod]
      exact flatIndex_lt_prod idx h.shape hidx
    rw [range_map_getD h.mem h.len _ hlt]
    show h.mem (flatIndex idx h.shape) = h.mem (dotNat idx (ndarray_shape A.size h).2)
    rw [hcontig, dotNat_rowMajorStrides]

/-- Witness for C8: a C-contiguous 2-by-3 f64 array (byte strides `[24, 8]`,
element size 8). -/
theorem as_slice_contiguous_row_major_witness :
    ∃ s vw,
      (as_slice npyFloat64 f64Mat23).1 = .ok s ∧
      (as_slice_mut npyFloat64 f64Mat23).1 = .ok s ∧
      (as_array npyFloat64 f64Mat23).1 = .ok vw ∧
      s.length = f64Mat23.len ∧
      (∀ k, k < f64Mat23.len → s.getD k 0 = f64Mat23.mem k) ∧
      (∀ idx, validIndex idx f64Mat23.shape = true →
        s.getD (flatIndex idx f64Mat23.shape) 0 = vw.get idx) :=
  as_slice_contiguous_row_major npyFloat64 f64Mat23 (by decide) (by decide)

/-- C10: on the empty outer vector the sibling-length default is 0, so
`from_vec2 []` succeeds with dims `[0, 0]` and `from_vec3 []` with dims
`[0, 0, 0]`, each allocated over the empty flattened buffer. -/
theorem from_vec_empty_outer (A : DType) :
    from_vec2 A [] = (.ok (new_ A [0, 0] []), [.alloc A.typenum [0, 0]]) ∧
    from_vec3 A [] = (.ok (new_ A [0, 0, 0] []), [.alloc A.typenum [0, 0, 0]]) ∧
    (new_ A [0, 0] []).shape = [0, 0] ∧
    (new_ A [0, 0, 0] []).shape = [0, 0, 0] ∧
    (new_ A [0, 0] []).len = 0 ∧
    (new_ A [0, 0, 0] []).len = 0 :=
  ⟨rfl, rfl, rfl, rfl, rfl, rfl⟩

end RustNumpy
